import Mathlib

/-!
# Verification of the GitLab Issue Manager client core

A shallow embedding of the repository's core logic:

* the credential/endpoint resolver (`resolveRestEndpoint` in
  `scripts/issues-cli.js` and `app/lib/gitlab.ts`),
* the paginated issue fetcher (`fetchProjectIssues`),
* the create/update issue mutator payload construction
  (`scripts/create-issue.js`, `updateIssue` in `app/lib/gitlab.ts`),
* the local filter/sort engine (`applyFilters`, `normalizeState`,
  `normalizeSort` in `scripts/issues-cli.js`, mirrored by the dashboard's
  `filteredIssues`).

Network transport is modelled by passing the finite sequence of HTTP
responses the provider would return to the successive requests; the embedding
records every request the code would issue, so theorems can speak about the
number and contents of requests.  Errors thrown by the JavaScript code are
modelled by an `Except` result whose error constructors follow the error
taxonomy of the specification (validation / transport / graphql / notFound),
one constructor per distinct `throw` site of the source.

JavaScript strings are Lean `String`s; `Array.prototype.sort` (stable) is
`List.mergeSort`; `localeCompare` and the comparison of `Date.getTime()`
values of the provider's fixed-format ISO-8601 UTC timestamps are modelled by
the lexicographic order on `String` (on equal-format UTC timestamps the
chronological order coincides with the lexicographic one).
-/

namespace GitLabIssueManager

/-! ## Data model (`app/lib/gitlab.ts`) -/

/-- `ProjectRef` of `app/lib/gitlab.ts`: identifier, display name, web URL. -/
structure ProjectRef where
  id : String
  name : String
  webUrl : String
deriving DecidableEq

/-- `IssueAssignee` of `app/lib/gitlab.ts`. -/
structure IssueAssignee where
  id : String
  name : String
  username : String
deriving DecidableEq

/-- `IssueLabel` of `app/lib/gitlab.ts`: title with optional color/description. -/
structure IssueLabel where
  title : String
  color : Option String := none
  description : Option String := none
deriving DecidableEq

/-- `GitLabIssue` of `app/lib/gitlab.ts`: the normalized issue record. -/
structure GitLabIssue where
  id : String
  iid : String
  title : String
  description : Option String := none
  state : String
  webUrl : String := ""
  createdAt : String := ""
  updatedAt : String := ""
  author : Option IssueAssignee := none
  assignees : List IssueAssignee := []
  labels : List IssueLabel := []
  healthStatus : Option String := none
  timeEstimate : Option Int := none
deriving DecidableEq

/-- `ProjectIssuesResult` of `app/lib/gitlab.ts`. -/
structure ProjectIssuesResult where
  project : ProjectRef
  issues : List GitLabIssue
  labels : List IssueLabel
deriving DecidableEq

/-! ## JavaScript string primitives

Modelled over the character data of `String` so that every operation is
kernel-computable.  `toLowerCase`/`trim` are modelled on the ASCII range
(all tokens this system compares are ASCII); `localeCompare` and the
numeric comparison of parsed `Date` instants are modelled by the
lexicographic character order (on the provider's fixed-format ISO-8601 UTC
timestamps the chronological order coincides with the lexicographic one). -/

/-- Lexicographic "less or equal" on character data. -/
def lexLeChars : List Char → List Char → Bool
  | [], _ => true
  | _ :: _, [] => false
  | a :: as, b :: bs => if a = b then lexLeChars as bs else decide (a < b)

/-- Lexicographic "less or equal" on strings. -/
def jsStringLe (s t : String) : Bool :=
  lexLeChars s.data t.data

/-- `String.prototype.toLowerCase` (ASCII range). -/
def jsToLower (s : String) : String :=
  ⟨s.data.map Char.toLower⟩

/-- `String.prototype.trim`: strip whitespace from both ends. -/
def jsTrim (s : String) : String :=
  ⟨((s.data.dropWhile Char.isWhitespace).reverse.dropWhile Char.isWhitespace).reverse⟩

/-! ## Filter/sort engine (`applyFilters` in `scripts/issues-cli.js`) -/

/-- `normalizeState` of `scripts/issues-cli.js`.  A falsy argument (absent or
empty string) yields `"all"`; otherwise the token is lowercased, `"opened"`
and `"closed"` are kept, `"open"` is mapped to `"opened"`, and anything else
falls back to `"all"`. -/
def normalizeState (state : Option String) : String :=
  match state with
  | none => "all"
  | some s =>
    if s = "" then "all"
    else
      let normalized := jsToLower s
      if normalized = "opened" || normalized = "closed" then normalized
      else if normalized = "open" then "opened"
      else "all"

/-- The five sort tokens accepted by `normalizeSort` in `scripts/issues-cli.js`. -/
def allowedSorts : List String :=
  ["updated_desc", "updated_asc", "created_desc", "created_asc", "title_asc"]

/-- `normalizeSort` of `scripts/issues-cli.js`: a falsy or unrecognized token
falls back to `"updated_desc"` (exact, case-sensitive membership test). -/
def normalizeSort (value : Option String) : String :=
  match value with
  | none => "updated_desc"
  | some v =>
    if v = "" then "updated_desc"
    else if allowedSorts.contains v then v
    else "updated_desc"

/-- `String.prototype.includes`: substring containment on the character data. -/
def listContainsSub (sub : List Char) : List Char → Bool
  | [] => sub.isEmpty
  | c :: cs => sub.isPrefixOf (c :: cs) || listContainsSub sub cs

/-- The search haystack built by `applyFilters`: title, description (empty
when absent), state token and all label titles, space-joined and lowercased. -/
def issueHaystack (i : GitLabIssue) : String :=
  jsToLower (String.intercalate " "
    ([i.title, i.description.getD "", i.state] ++ i.labels.map (fun l => l.title)))

/-- The predicate of the `issues.filter(...)` call inside `applyFilters`. -/
def issueMatches (stateFilter needle : String) (i : GitLabIssue) : Bool :=
  if stateFilter ≠ "all" ∧ i.state ≠ stateFilter then false
  else if needle = "" then true
  else listContainsSub needle.data (issueHaystack i).data

/-- The comparator of the `filtered.sort(...)` call inside `applyFilters`,
rendered as the boolean "sorts-before-or-ties" test of the comparator value
(`cmp(a, b) <= 0`).  Timestamp instants and `localeCompare` are modelled by
the lexicographic order on the timestamp/title strings. -/
def sortLe (mode : String) (a b : GitLabIssue) : Bool :=
  if mode = "updated_asc" then jsStringLe a.updatedAt b.updatedAt
  else if mode = "created_desc" then jsStringLe b.createdAt a.createdAt
  else if mode = "created_asc" then jsStringLe a.createdAt b.createdAt
  else if mode = "title_asc" then jsStringLe a.title b.title
  else jsStringLe b.updatedAt a.updatedAt

/-- `sortLe` as a (decidable) relation, for the stable sort. -/
def sortRel (mode : String) (a b : GitLabIssue) : Prop :=
  sortLe mode a b = true

instance (mode : String) (a b : GitLabIssue) : Decidable (sortRel mode a b) :=
  inferInstanceAs (Decidable (sortLe mode a b = true))

/-- The `{filterText, state, sort}` options object taken by `applyFilters`. -/
structure FilterOptions where
  filterText : Option String := none
  state : Option String := none
  sort : Option String := none
deriving DecidableEq

/-- `applyFilters` of `scripts/issues-cli.js` (the dashboard's
`filteredIssues` in `IssueManagerDashboard` computes the same value with its
typed state/sort tokens): filter by state and lowercased trimmed needle, then
stably sort by the selected comparator.  `Array.prototype.sort` is a stable
sort; it is modelled by the stable `List.insertionSort` (all stable sorts
agree on a consistent comparator). -/
def applyFilters (issues : List GitLabIssue) (opts : FilterOptions) : List GitLabIssue :=
  (issues.filter
      (issueMatches (normalizeState opts.state)
        (jsToLower (jsTrim (opts.filterText.getD ""))))).insertionSort
    (sortRel (normalizeSort opts.sort))

/-! ## GraphQL wire shapes and the paginated fetcher
(`fetchProjectIssues` in `app/lib/gitlab.ts`, mirrored by
`scripts/issues-cli.js`) -/

/-- One element of `project.issues.nodes` in the GraphQL response.
`assigneesNodes`/`labelsNodes` are `Option`s because the source reads them
through `node.assignees?.nodes ?? []` / `node.labels?.nodes ?? []`. -/
structure IssueNode where
  id : String
  iid : String
  title : String
  description : Option String := none
  state : String
  webUrl : String := ""
  createdAt : String := ""
  updatedAt : String := ""
  author : Option IssueAssignee := none
  assigneesNodes : Option (List IssueAssignee) := none
  labelsNodes : Option (List IssueLabel) := none
  healthStatus : Option String := none
  timeEstimate : Option Int := none
deriving DecidableEq

/-- The per-node mapping inside the fetch loop of `fetchProjectIssues`. -/
def normalizeIssueNode (n : IssueNode) : GitLabIssue :=
  { id := n.id, iid := n.iid, title := n.title, description := n.description,
    state := n.state, webUrl := n.webUrl, createdAt := n.createdAt,
    updatedAt := n.updatedAt, author := n.author,
    assignees := n.assigneesNodes.getD [], labels := n.labelsNodes.getD [],
    healthStatus := n.healthStatus, timeEstimate := n.timeEstimate }

/-- `pageInfo { hasNextPage, endCursor }` of the GraphQL response. -/
structure PageInfo where
  hasNextPage : Bool
  endCursor : Option String := none
deriving DecidableEq

/-- The `project` object of the GraphQL response.  `labelsNodes` stands for
`project.labels.nodes` (read through `?? labels` in the source),
`issuesNodes` for `project.issues.nodes` (read through `?.map ... ?? []`). -/
structure ProjectNode where
  id : String
  name : String
  webUrl : String
  labelsNodes : Option (List IssueLabel) := none
  issuesNodes : Option (List IssueNode) := none
  issuesPageInfo : PageInfo
deriving DecidableEq

/-- The decoded GraphQL payload.  `project` stands for
`payload.data?.project` (an absent `data` and a null `project` are
indistinguishable to the source's `!payload.data?.project` test);
`errors` carries the messages of `payload.errors` when that array is
present. -/
structure GraphQLPayload where
  project : Option ProjectNode := none
  errors : Option (List String) := none
deriving DecidableEq

/-- The HTTP response to one GraphQL request: `ok`/`status`/`statusText` of
the fetch `Response` plus the decoded JSON payload. -/
structure HttpResponse where
  ok : Bool
  status : Nat := 200
  statusText : String := ""
  payload : GraphQLPayload
deriving DecidableEq

/-- The variables of one GraphQL request issued by the fetch loop
(`{ fullPath, first, after }`). -/
structure IssueRequest where
  fullPath : String
  first : Nat
  after : Option String
deriving DecidableEq

/-- The error taxonomy of the specification, one constructor per `throw`
site of `fetchProjectIssues`.  `providerExhausted` is a model-only outcome:
it marks the case where the supplied response sequence is shorter than the
pagination demands (the real code would issue one more network request). -/
inductive FetchError where
  | validation (message : String)
  | transport (status : Nat) (statusText : String)
  | graphql (message : String)
  | notFound (message : String)
  | providerExhausted
deriving DecidableEq

/-- The truthiness test `payload.errors?.length` of the source: `true` iff
the errors array is absent or empty. -/
def errorsEmpty (r : HttpResponse) : Bool :=
  match r.payload.errors with
  | some (_ :: _) => false
  | _ => true

/-- The `projectMeta ?? { id: "unknown", name: projectFullPath, webUrl: "" }`
fallback of the source's final return. -/
def unknownProject (fp : String) : ProjectRef :=
  ⟨"unknown", fp, ""⟩

/-- State accumulated by the fetch loop: the `projectMeta` variable (still
`Option` because it starts as `null`), the `issues` accumulator and the
`labels` snapshot. -/
def LoopState : Type :=
  Option ProjectRef × List GitLabIssue × List IssueLabel

/-- The `do ... while (pageInfo?.hasNextPage)` loop of `fetchProjectIssues`,
one recursive step per provider response.  Each step first records the
request the source would issue (variables `fullPath`/`first`/`after`), then
checks `response.ok`, the `errors` array and the nullability of the project
object exactly as the source does, accumulates the page's issues, overwrites
the project metadata and (when present) the labels snapshot, and continues
while `hasNextPage` holds, threading `endCursor` into the next request. -/
def fetchLoop (fp : String) (ps : Nat) (cursor : Option String)
    (acc : List GitLabIssue) (meta : Option ProjectRef) (labels : List IssueLabel) :
    List HttpResponse → List IssueRequest × Except FetchError LoopState
  | [] => ([], .error .providerExhausted)
  | r :: rest =>
    let req : IssueRequest := ⟨fp, ps, cursor⟩
    if r.ok = false then
      ([req], .error (.transport r.status r.statusText))
    else if errorsEmpty r = false then
      ([req], .error (.graphql (String.intercalate "; " (r.payload.errors.getD []))))
    else
      match r.payload.project with
      | none => ([req], .error (.notFound "Project not found or access denied."))
      | some project =>
        let meta' : ProjectRef := ⟨project.id, project.name, project.webUrl⟩
        let labels' := project.labelsNodes.getD labels
        let acc' := acc ++ (project.issuesNodes.getD []).map normalizeIssueNode
        if project.issuesPageInfo.hasNextPage then
          let next := fetchLoop fp ps project.issuesPageInfo.endCursor acc' (some meta') labels' rest
          (req :: next.1, next.2)
        else
          ([req], .ok (some meta', acc', labels'))

/-- `fetchProjectIssues` of `app/lib/gitlab.ts`: fail fast on an empty
project path or token (before any request), then run the pagination loop
against the provider's response sequence.  The returned pair is the list of
requests the code issued together with the outcome. -/
def fetchProjectIssues (fp token : String) (ps : Nat)
    (responses : List HttpResponse) :
    List IssueRequest × Except FetchError ProjectIssuesResult :=
  if fp = "" then ([], .error (.validation "Missing GitLab project full path."))
  else if token = "" then ([], .error (.validation "Missing GitLab access token."))
  else
    let run := fetchLoop fp ps none [] none [] responses
    (run.1, run.2.map fun s => ⟨s.1.getD (unknownProject fp), s.2.1, s.2.2⟩)

/-! ### Observations on one provider response, used to state the
pagination theorems -/

/-- The project metadata a successful page installs. -/
def pageMeta (r : HttpResponse) : Option ProjectRef :=
  r.payload.project.map fun p => ⟨p.id, p.name, p.webUrl⟩

/-- The labels snapshot a page carries (`project.labels.nodes`), when present. -/
def pageLabels (r : HttpResponse) : Option (List IssueLabel) :=
  r.payload.project.bind fun p => p.labelsNodes

/-- The normalized issues contributed by one page, in server order. -/
def pageIssues (r : HttpResponse) : List GitLabIssue :=
  match r.payload.project with
  | some p => (p.issuesNodes.getD []).map normalizeIssueNode
  | none => []

/-- The `hasNextPage` flag of one page. -/
def pageHasNext (r : HttpResponse) : Bool :=
  match r.payload.project with
  | some p => p.issuesPageInfo.hasNextPage
  | none => false

/-- The `endCursor` of one page (the `after` value of the following request,
`?? null` in the source). -/
def pageCursor (r : HttpResponse) : Option String :=
  match r.payload.project with
  | some p => p.issuesPageInfo.endCursor
  | none => none

/-- A response the loop accepts: HTTP success, empty/absent `errors`,
non-null project. -/
def goodPage (r : HttpResponse) : Prop :=
  r.ok = true ∧ errorsEmpty r = true ∧ r.payload.project.isSome = true

instance (r : HttpResponse) : Decidable (goodPage r) := by
  unfold goodPage; infer_instance

/-- A successful page that announces a further page. -/
def goodMidPage (r : HttpResponse) : Prop :=
  goodPage r ∧ pageHasNext r = true

instance (r : HttpResponse) : Decidable (goodMidPage r) := by
  unfold goodMidPage; infer_instance

/-- A successful final page (`hasNextPage: false`). -/
def goodLastPage (r : HttpResponse) : Prop :=
  goodPage r ∧ pageHasNext r = false

instance (r : HttpResponse) : Decidable (goodLastPage r) := by
  unfold goodLastPage; infer_instance

/-- The request sequence the loop issues over a response sequence: one
request per page, the first carrying the starting cursor, each following
request carrying the previous page's `endCursor`. -/
def expectedRequests (fp : String) (ps : Nat) (cursor : Option String) :
    List HttpResponse → List IssueRequest
  | [] => []
  | r :: rest => ⟨fp, ps, cursor⟩ :: expectedRequests fp ps (pageCursor r) rest

/-- The labels snapshot after folding a response sequence: each page with a
present `labels.nodes` overwrites the snapshot (`?? labels` keeps the old
one otherwise). -/
def threadLabels (init : List IssueLabel) : List HttpResponse → List IssueLabel
  | [] => init
  | r :: rest => threadLabels ((pageLabels r).getD init) rest

/-! ## Endpoint resolver (`resolveRestEndpoint` in `scripts/issues-cli.js`;
the copy in `app/lib/gitlab.ts` is the same function without the explicit
REST override parameter) -/

/-- The hardcoded default REST endpoint. -/
def DEFAULT_REST_ENDPOINT : String := "https://gitlab.com/api/v4"

/-- `String.prototype.replace` with a string pattern: replace the first
occurrence only, scanning left to right over the character data. -/
def replaceFirstAux (pat repl : List Char) : List Char → List Char
  | [] => []
  | c :: cs =>
    if pat.isPrefixOf (c :: cs) then repl ++ (c :: cs).drop pat.length
    else c :: replaceFirstAux pat repl cs

/-- `s.replace(pat, repl)` of JavaScript for a string pattern (first
occurrence only). -/
def jsReplaceFirst (s pat repl : String) : String :=
  ⟨replaceFirstAux pat.data repl.data s.data⟩

/-- `s.endsWith(pat)` of JavaScript. -/
def jsEndsWith (s pat : String) : Bool :=
  pat.data.isSuffixOf s.data

/-- The `.replace(/\/$/, "")` idiom of the source: strip one trailing slash. -/
def stripTrailingSlash (s : String) : String :=
  if jsEndsWith s "/" then ⟨s.data.dropLast⟩ else s

/-- The derivation branch of `resolveRestEndpoint` (everything after the
explicit-override test): default when the GraphQL URL is falsy, substring
replacement when it ends with `/api/graphql`, default otherwise. -/
def resolveFromGraphql (graphqlUrl : Option String) : String :=
  match graphqlUrl with
  | none => DEFAULT_REST_ENDPOINT
  | some g =>
    if g = "" then DEFAULT_REST_ENDPOINT
    else if jsEndsWith g "/api/graphql" then jsReplaceFirst g "/api/graphql" "/api/v4"
    else DEFAULT_REST_ENDPOINT

/-- `resolveRestEndpoint(graphqlUrl, explicitRestUrl)` of
`scripts/issues-cli.js`: a truthy explicit REST URL wins (with one trailing
slash stripped), otherwise derive from the GraphQL URL. -/
def resolveRestEndpoint (graphqlUrl explicitRestUrl : Option String) : String :=
  match explicitRestUrl with
  | some e => if e ≠ "" then stripTrailingSlash e else resolveFromGraphql graphqlUrl
  | none => resolveFromGraphql graphqlUrl

/-! ## Issue creation (`scripts/create-issue.js`, `main`) -/

/-- A JavaScript number as far as `Number.isFinite` and arithmetic on the
time estimate are concerned. -/
inductive JsNum where
  | num (q : ℚ)
  | nan
  | posInf
  | negInf
deriving DecidableEq

/-- `Number.isFinite`. -/
def JsNum.isFinite : JsNum → Bool
  | .num _ => true
  | _ => false

/-- `Math.round`: round half toward positive infinity. -/
def jsRound (q : ℚ) : Int :=
  ⌊q + 1 / 2⌋

/-- The 3-value health enum accepted by the GitLab provider. -/
def healthEnum : List String := ["on_track", "needs_attention", "at_risk"]

/-- The JSON body `POST`ed to `/projects/:id/issues` by the create-issue CLI. -/
structure CreateIssuePayload where
  title : String
  description : String
  labels : String
  health_status : Option String := none
  time_estimate : Option Int := none
deriving DecidableEq

/-- The `health_status` key of the create payload: the source's
`if (health === "on_track" || health === "needs_attention" || health === "at_risk")`
guard — the key is set only for the three enum values, any other value is
silently dropped. -/
def healthField (health : Option String) : Option String :=
  match health with
  | some h => if healthEnum.contains h then some h else none
  | none => none

/-- The `time_estimate` key of the create payload: the source's
`if (Number.isFinite(estimateHours) && estimateHours > 0)` guard — the key is
set to `Math.round(hours * 3600)` only for a finite, strictly positive hours
value, and silently dropped otherwise. -/
def estimateSecondsField : Option JsNum → Option Int
  | some (.num q) => if 0 < q then some (jsRound (q * 3600)) else none
  | _ => none

/-- The payload construction of `main` in `scripts/create-issue.js`: a
missing title is an error; the health indicator is included only when it is
one of the three enum values (any other value is silently dropped); the time
estimate is included as `Math.round(hours * 3600)` only when the hours value
is finite and strictly positive (anything else is silently dropped).  An
`Except.ok` value means the CLI dispatches exactly this body. -/
def buildCreateIssuePayload (title : Option String) (description : Option String)
    (labels : Option String) (health : Option String) (estimate : Option JsNum) :
    Except String CreateIssuePayload :=
  match title with
  | none => .error "Missing required --title."
  | some t =>
    if t = "" then .error "Missing required --title."
    else
      .ok { title := t, description := description.getD "", labels := labels.getD "",
            health_status := healthField health,
            time_estimate := estimateSecondsField estimate }

/-! ## Issue update (`updateIssue` in `app/lib/gitlab.ts`) -/

/-- `UpdateIssueInput` of `app/lib/gitlab.ts`.  The outer `Option` of
`timeEstimateSeconds` is presence of the field, the inner one distinguishes
an explicit `null` from a number (`timeEstimateSeconds?: number | null`). -/
structure UpdateIssueInput where
  issueIid : String
  title : Option String := none
  description : Option String := none
  labels : Option (List String) := none
  stateEvent : Option String := none
  healthStatus : Option String := none
  timeEstimateSeconds : Option (Option Int) := none
deriving DecidableEq

/-- The JSON body `PUT` to `/projects/:id/issues/:iid` by `updateIssue`; a
`none` field is absent from the body.  `time_estimate` keeps the inner
`Option` so an explicit `null` can be sent. -/
structure UpdateBody where
  title : Option String := none
  description : Option String := none
  labels : Option String := none
  state_event : Option String := none
  health_status : Option String := none
  time_estimate : Option (Option Int) := none
deriving DecidableEq

/-- The body construction of `updateIssue`: `title`, `state_event` and
`health_status` are guarded by truthiness (`if (input.title)` — an explicit
empty string is dropped), `description` and `time_estimate` by presence
(`!== undefined`), and `labels` by truthiness of the array (every array,
including the empty one, is truthy and is comma-joined). -/
def buildUpdateBody (input : UpdateIssueInput) : UpdateBody :=
  { title :=
      match input.title with
      | some t => if t ≠ "" then some t else none
      | none => none,
    description := input.description,
    labels := input.labels.map (String.intercalate ","),
    state_event :=
      match input.stateEvent with
      | some s => if s ≠ "" then some s else none
      | none => none,
    health_status :=
      match input.healthStatus with
      | some h => if h ≠ "" then some h else none
      | none => none,
    time_estimate := input.timeEstimateSeconds }

/-- `Object.keys(body).length === 0`: the built body carries no field. -/
def bodyIsEmpty (b : UpdateBody) : Bool :=
  b.title.isNone && b.description.isNone && b.labels.isNone &&
    b.state_event.isNone && b.health_status.isNone && b.time_estimate.isNone

/-- `updateIssue` of `app/lib/gitlab.ts` up to the point where the request
is dispatched: a falsy `issueIid` fails first, an empty built body fails
with the "nothing to update" validation error, otherwise the request with
exactly the built body is dispatched (`Except.ok`). -/
def updateIssueRequest (input : UpdateIssueInput) : Except String UpdateBody :=
  if input.issueIid = "" then .error "Missing issueIid."
  else
    let body := buildUpdateBody input
    if bodyIsEmpty body then .error "No fields provided to update."
    else .ok body

/-! ## Concrete sample data used to instantiate the theorems -/

/-- A sample opened issue. -/
def openedSample : GitLabIssue :=
  { id := "gid://issue/3", iid := "3", title := "Open one", state := "opened" }

/-- A sample closed issue. -/
def closedSample : GitLabIssue :=
  { id := "gid://issue/9", iid := "9", title := "Closed one", state := "closed" }

/-- A sample GraphQL issue node. -/
def sampleNode : IssueNode :=
  { id := "gid://issue/1", iid := "1", title := "Sample", state := "opened" }

/-- A sample project label. -/
def sampleLabel : IssueLabel := { title := "bug" }

/-- A sample project node around a given issue page. -/
def sampleProject (issues : List IssueNode) (next : Bool) (cursor : Option String) :
    ProjectNode :=
  { id := "gid", name := "Demo", webUrl := "https://gitlab.example/demo",
    labelsNodes := some [sampleLabel], issuesNodes := some issues,
    issuesPageInfo := { hasNextPage := next, endCursor := cursor } }

/-- A succeeding HTTP response around a project node. -/
def okResponse (p : ProjectNode) : HttpResponse :=
  { ok := true, payload := { project := some p } }

/-- Page 1 of the spec's 2-page sequence: 50 issues, `hasNextPage: true`,
cursor `"c1"`. -/
def page50 : HttpResponse :=
  okResponse (sampleProject (List.replicate 50 sampleNode) true (some "c1"))

/-- Page 2 of the spec's 2-page sequence: 13 issues, `hasNextPage: false`. -/
def page13 : HttpResponse :=
  okResponse (sampleProject (List.replicate 13 sampleNode) false none)

/-- Issue nodes with pairwise distinct identifiers. -/
def nodeA : IssueNode := { id := "a", iid := "1", title := "A", state := "opened" }

/-- See `nodeA`. -/
def nodeB : IssueNode := { id := "b", iid := "2", title := "B", state := "opened" }

/-- See `nodeA`. -/
def nodeC : IssueNode := { id := "c", iid := "3", title := "C", state := "closed" }

/-- A first page carrying two distinct issues. -/
def pageAB : HttpResponse :=
  okResponse (sampleProject [nodeA, nodeB] true (some "k1"))

/-- A final page carrying one further distinct issue. -/
def pageC : HttpResponse :=
  okResponse (sampleProject [nodeC] false none)

/-- A failing HTTP response (non-success status). -/
def badHttpResponse : HttpResponse :=
  { ok := false, status := 500, statusText := "Internal Server Error",
    payload := {} }

/-- A response carrying a non-empty GraphQL `errors` array. -/
def gqlErrorResponse : HttpResponse :=
  { ok := true,
    payload := { errors := some ["field unknown", "denied"] } }

/-- A response whose `data.project` is null. -/
def nullProjectResponse : HttpResponse :=
  { ok := true, payload := {} }

/-! ## Theorems: filter/sort engine -/

/-- Totality of the lexicographic character order. -/
theorem lexLeChars_total : ∀ (x y : List Char), lexLeChars x y || lexLeChars y x := by
  intro x
  induction x with
  | nil => intro y; simp [lexLeChars]
  | cons a as ih =>
    intro y
    cases y with
    | nil => simp [lexLeChars]
    | cons b bs =>
      by_cases hab : a = b
      · subst hab
        simpa [lexLeChars] using ih bs
      · rcases lt_or_gt_of_ne hab with h | h
        · simp [lexLeChars, hab, h]
        · simp [lexLeChars, hab, Ne.symm hab, h, not_lt_of_gt h]

/-- Transitivity of the lexicographic character order. -/
theorem lexLeChars_trans : ∀ {x y z : List Char},
    lexLeChars x y = true → lexLeChars y z = true → lexLeChars x z = true := by
  intro x
  induction x with
  | nil => intro y z _ _; simp [lexLeChars]
  | cons a as ih =>
    intro y z h1 h2
    cases y with
    | nil => simp [lexLeChars] at h1
    | cons b bs =>
      cases z with
      | nil => simp [lexLeChars] at h2
      | cons c cs =>
        by_cases hab : a = b <;> by_cases hbc : b = c
        · subst hab; subst hbc
          simp only [lexLeChars, if_pos rfl] at *
          exact ih h1 h2
        · subst hab
          simp only [lexLeChars, if_pos rfl, if_neg hbc] at *
          simp [h2, ne_of_lt (by simpa using h2)]
        · subst hbc
          simp only [lexLeChars, if_neg hab, if_pos rfl] at *
          simp [lexLeChars, hab, h1]
        · simp only [lexLeChars, if_neg hab, if_neg hbc, decide_eq_true_eq] at h1 h2
          have hac : a < c := lt_trans h1 h2
          simp [lexLeChars, ne_of_lt hac, hac]

/-- With state filter `"all"` and empty needle, the filter predicate of
`applyFilters` accepts every issue. -/
theorem issueMatches_all_empty (i : GitLabIssue) : issueMatches "all" "" i = true := by
  simp [issueMatches]

/-- Under the `"all"` state filter and an empty needle, the `filter` stage
of `applyFilters` keeps the whole list. -/
theorem filter_all_empty (issues : List GitLabIssue) :
    issues.filter (issueMatches "all" "") = issues :=
  List.filter_eq_self.mpr fun a _ => issueMatches_all_empty a

/-- C3: for every issue list, `applyFilters` with state `"all"` and empty or
whitespace-only filter text returns a permutation of the input — no element
added, removed or modified, only reordered by the selected sort. -/
theorem applyFilters_state_all_empty_text_perm
    (issues : List GitLabIssue) (opts : FilterOptions)
    (hft : jsTrim (opts.filterText.getD "") = "")
    (hst : normalizeState opts.state = "all") :
    (applyFilters issues opts).Perm issues := by
  unfold applyFilters
  rw [hft, hst]
  have htl : jsToLower "" = "" := rfl
  rw [htl, filter_all_empty]
  exact List.perm_insertionSort (sortRel (normalizeSort opts.sort)) issues

/-- Witness for C3 at a concrete whitespace-only filter and two issues. -/
theorem applyFilters_state_all_empty_text_perm_witness :
    jsTrim ((some "   " : Option String).getD "") = "" ∧
    normalizeState (some "all") = "all" ∧
    (applyFilters [openedSample, closedSample]
        ⟨some "   ", some "all", some "title_asc"⟩).Perm [openedSample, closedSample] :=
  ⟨by decide, by decide,
   applyFilters_state_all_empty_text_perm [openedSample, closedSample]
     ⟨some "   ", some "all", some "title_asc"⟩ (by decide) (by decide)⟩

/-- The `title_asc` comparator unfolded. -/
theorem sortRel_title_asc (a b : GitLabIssue) :
    sortRel "title_asc" a b ↔ lexLeChars a.title.data b.title.data = true :=
  Iff.rfl

/-- C9: `applyFilters` with sort `"title_asc"` is idempotent — applying it a
second time to its own output returns the output unchanged. -/
theorem applyFilters_title_asc_idempotent (issues : List GitLabIssue) :
    applyFilters (applyFilters issues ⟨none, none, some "title_asc"⟩)
        ⟨none, none, some "title_asc"⟩ =
      applyFilters issues ⟨none, none, some "title_asc"⟩ := by
  have hsort : normalizeSort (some "title_asc") = "title_asc" := by decide
  haveI htr : IsTrans GitLabIssue (sortRel "title_asc") := by
    refine ⟨fun a b c hab hbc => ?_⟩
    rw [sortRel_title_asc] at *
    exact lexLeChars_trans hab hbc
  haveI hto : IsTotal GitLabIssue (sortRel "title_asc") := by
    refine ⟨fun a b => ?_⟩
    rw [sortRel_title_asc, sortRel_title_asc]
    exact Bool.or_eq_true_iff.mp (lexLeChars_total a.title.data b.title.data)
  have hsorted :
      ((issues.filter (issueMatches "all" "")).insertionSort
          (sortRel "title_asc")).Sorted (sortRel "title_asc") :=
    List.sorted_insertionSort (sortRel "title_asc") _
  have hAF : ∀ l : List GitLabIssue, applyFilters l ⟨none, none, some "title_asc"⟩ =
      (l.filter (issueMatches "all" "")).insertionSort (sortRel "title_asc") :=
    fun l => rfl
  rw [hAF, hAF, filter_all_empty, List.Sorted.insertionSort_eq hsorted]

/-- C10: `applyFilters` is pure — every element of the output is an element
of the input (the result is a fresh list of the same records, the input is
not mutated), and equal inputs yield equal outputs. -/
theorem applyFilters_pure :
    (∀ (issues : List GitLabIssue) (opts : FilterOptions) (x : GitLabIssue),
        x ∈ applyFilters issues opts → x ∈ issues) ∧
    (∀ (issues₁ issues₂ : List GitLabIssue) (opts₁ opts₂ : FilterOptions),
        issues₁ = issues₂ → opts₁ = opts₂ →
        applyFilters issues₁ opts₁ = applyFilters issues₂ opts₂) := by
  constructor
  · intro issues opts x hx
    unfold applyFilters at hx
    exact (List.mem_filter.mp ((List.mem_insertionSort _).mp hx)).1
  · intro issues₁ issues₂ opts₁ opts₂ h₁ h₂
    rw [h₁, h₂]

/-- Witness for C10 at concrete inputs. -/
theorem applyFilters_pure_witness :
    openedSample ∈ [openedSample, closedSample] ∧
    applyFilters [openedSample] ⟨none, none, none⟩ =
      applyFilters [openedSample] ⟨none, none, none⟩ :=
  ⟨applyFilters_pure.1 [openedSample, closedSample] ⟨none, none, none⟩ openedSample
      (by decide),
   applyFilters_pure.2 [openedSample] [openedSample] ⟨none, none, none⟩
      ⟨none, none, none⟩ rfl rfl⟩

/-- Counterexample to C4 as stated: the state token `"open"` is not
`"opened"` or `"closed"`, yet `normalizeState` maps it to `"opened"`, not
`"all"`; consequently `applyFilters` with state `"open"` filters a closed
issue out, which state `"all"` would keep. -/
theorem normalizeState_open_counterexample :
    normalizeState (some "open") = "opened" ∧
    normalizeState (some "open") ≠ "all" ∧
    applyFilters [closedSample] ⟨none, some "open", none⟩ = [] ∧
    applyFilters [closedSample] ⟨none, some "all", none⟩ = [closedSample] := by
  refine ⟨by decide, by decide, by decide, by decide⟩

/-- C4 amended (state part): after lowercasing, every state token other than
`"opened"`, `"closed"` and `"open"` is silently treated as `"all"`; `"open"`
(in any case) is normalized to `"opened"`, not `"all"`.  Sort part, as
claimed: every sort token outside the five allowed values falls back to
`"updated_desc"`, and the five allowed values are kept verbatim. -/
theorem normalize_fallbacks_amended :
    (∀ s : String, jsToLower s ≠ "opened" → jsToLower s ≠ "closed" → jsToLower s ≠ "open" →
        normalizeState (some s) = "all") ∧
    (∀ s : String, jsToLower s = "open" → normalizeState (some s) = "opened") ∧
    (∀ v : String, v ∉ allowedSorts → normalizeSort (some v) = "updated_desc") ∧
    (∀ v : String, v ∈ allowedSorts → normalizeSort (some v) = v) := by
  refine ⟨?_, ?_, ?_, ?_⟩
  · intro s h1 h2 h3
    simp only [normalizeState]
    split
    · rfl
    · simp [h1, h2, h3]
  · intro s h
    simp only [normalizeState]
    split
    · rename_i hs
      rw [hs] at h
      exact absurd h (by decide)
    · simp [h]
  · intro v hv
    have hc : allowedSorts.contains v = false := by
      simpa using hv
    simp only [normalizeSort, hc]
    split <;> rfl
  · intro v hv
    simp only [allowedSorts, List.mem_cons, List.mem_singleton] at hv
    rcases hv with rfl | rfl | rfl | rfl | rfl | h
    · rfl
    · rfl
    · rfl
    · rfl
    · rfl
    · simp at h

/-- Witness for the amended C4 at concrete tokens. -/
theorem normalize_fallbacks_amended_witness :
    normalizeState (some "bogus") = "all" ∧
    normalizeState (some "OPEN") = "opened" ∧
    normalizeSort (some "nope") = "updated_desc" ∧
    normalizeSort (some "title_asc") = "title_asc" :=
  ⟨normalize_fallbacks_amended.1 "bogus" (by decide) (by decide) (by decide),
   normalize_fallbacks_amended.2.1 "OPEN" (by decide),
   normalize_fallbacks_amended.2.2.1 "nope" (by decide),
   normalize_fallbacks_amended.2.2.2 "title_asc" (by decide)⟩

/-! ## Theorems: endpoint resolver -/

/-- Counterexample to C7 as stated: `String.prototype.replace` with a string
pattern replaces the first occurrence, not the suffix.  On a GraphQL URL in
which `/api/graphql` occurs twice, the code rewrites the first occurrence,
not the trailing one, so the result is not the suffix substitution the claim
describes. -/
theorem resolveRestEndpoint_counterexample :
    resolveRestEndpoint (some "https://host/api/graphql/api/graphql") none =
        "https://host/api/v4/api/graphql" ∧
    resolveRestEndpoint (some "https://host/api/graphql/api/graphql") none ≠
        "https://host/api/graphql/api/v4" := by
  refine ⟨by decide, by decide⟩

/-- If the first occurrence of `pat` in `pre ++ pat` is the trailing one
(no occurrence starts before position `pre.length`), replacing the first
occurrence replaces the trailing one. -/
theorem replaceFirstAux_of_first_at_end (pat repl : List Char) (hpat : pat ≠ []) :
    ∀ pre : List Char,
      (∀ i, i < pre.length → pat.isPrefixOf ((pre ++ pat).drop i) = false) →
      replaceFirstAux pat repl (pre ++ pat) = pre ++ repl := by
  intro pre
  induction pre with
  | nil =>
    intro _
    obtain ⟨c, cs, rfl⟩ := List.exists_cons_of_ne_nil hpat
    simp only [List.nil_append, replaceFirstAux]
    rw [if_pos (by simp [List.isPrefixOf_iff_prefix])]
    simp
  | cons c cs ih =>
    intro h
    have h0 : pat.isPrefixOf (c :: (cs ++ pat)) = false := by
      have := h 0 (by simp)
      simpa using this
    obtain ⟨d, ds, rfl⟩ := List.exists_cons_of_ne_nil hpat
    simp only [List.cons_append, replaceFirstAux]
    rw [if_neg (by simp [h0])]
    simp only [List.append_eq]
    rw [ih (fun i hi => by simpa using h (i + 1) (by simpa using Nat.succ_lt_succ hi))]

/-- C7 amended: a truthy explicit REST URL wins, with one trailing slash
stripped; an absent GraphQL URL yields the hardcoded default; a GraphQL URL
not ending in `/api/graphql` yields the hardcoded default; and a GraphQL URL
ending in `/api/graphql` has the **first** occurrence of `/api/graphql`
replaced by `/api/v4` — which is the claimed suffix substitution exactly
when the suffix is the first occurrence. -/
theorem resolveRestEndpoint_amended :
    (∀ (g : Option String) (e : String), e ≠ "" →
        resolveRestEndpoint g (some e) = stripTrailingSlash e) ∧
    (resolveRestEndpoint none none = "https://gitlab.com/api/v4") ∧
    (∀ g : String, g ≠ "" → jsEndsWith g "/api/graphql" = false →
        resolveRestEndpoint (some g) none = "https://gitlab.com/api/v4") ∧
    (∀ g : String, g ≠ "" → jsEndsWith g "/api/graphql" = true →
        resolveRestEndpoint (some g) none = jsReplaceFirst g "/api/graphql" "/api/v4") ∧
    (∀ pre : List Char,
        (∀ i, i < pre.length →
          ("/api/graphql".data.isPrefixOf ((pre ++ "/api/graphql".data).drop i)) = false) →
        resolveRestEndpoint (some ⟨pre ++ "/api/graphql".data⟩) none =
          ⟨pre ++ "/api/v4".data⟩) := by
  refine ⟨?_, rfl, ?_, ?_, ?_⟩
  · intro g e he
    simp only [resolveRestEndpoint]
    rw [if_pos he]
  · intro g hg hend
    simp only [resolveRestEndpoint, resolveFromGraphql]
    rw [if_neg hg, if_neg (by simp [hend])]
    rfl
  · intro g hg hend
    simp only [resolveRestEndpoint, resolveFromGraphql]
    rw [if_neg hg, if_pos hend]
  · intro pre h
    have hne : (⟨pre ++ "/api/graphql".data⟩ : String) ≠ "" := by
      intro hcontra
      have : pre ++ "/api/graphql".data = ([] : List Char) := congrArg String.data hcontra
      simp at this
    have hend : jsEndsWith ⟨pre ++ "/api/graphql".data⟩ "/api/graphql" = true := by
      simp only [jsEndsWith]
      rw [List.isSuffixOf_iff_suffix]
      exact List.suffix_append pre _
    simp only [resolveRestEndpoint, resolveFromGraphql]
    rw [if_neg hne, if_pos hend]
    simp only [jsReplaceFirst]
    rw [replaceFirstAux_of_first_at_end _ _ (by decide) pre h]

/-- Witness for the amended C7: the explicit override wins with the trailing
slash stripped, and on the standard single-occurrence URL the replacement is
the suffix substitution. -/
theorem resolveRestEndpoint_amended_witness :
    resolveRestEndpoint (some "https://gitlab.example.com/api/graphql")
        (some "https://custom/rest/") = "https://custom/rest" ∧
    resolveRestEndpoint (some "https://gitlab.example.com/api/graphql") none =
        "https://gitlab.example.com/api/v4" := by
  constructor
  · rw [resolveRestEndpoint_amended.1 (some "https://gitlab.example.com/api/graphql")
        "https://custom/rest/" (by decide)]
    decide
  · have h := resolveRestEndpoint_amended.2.2.2.2 ("https://gitlab.example.com".data)
      (by decide)
    have hg : (⟨"https://gitlab.example.com".data ++ "/api/graphql".data⟩ : String) =
        "https://gitlab.example.com/api/graphql" := by decide
    have hv : (⟨"https://gitlab.example.com".data ++ "/api/v4".data⟩ : String) =
        "https://gitlab.example.com/api/v4" := by decide
    rw [hg, hv] at h
    exact h

/-! ## Theorems: issue creation -/

/-- Counterexample to C5 as stated: with `health = "bogus"` the create CLI
does **not** fail with a `ValidationError` — it silently drops the invalid
health value and still dispatches the request (the built payload has no
`health_status`).  Likewise a negative estimate is silently dropped rather
than rejected. -/
theorem createIssue_invalid_input_counterexample :
    buildCreateIssuePayload (some "A bug") none none (some "bogus") none =
        .ok { title := "A bug", description := "", labels := "" } ∧
    buildCreateIssuePayload (some "A bug") none none none (some (.num (-2))) =
        .ok { title := "A bug", description := "", labels := "" } :=
  ⟨rfl, rfl⟩

/-- C5 amended: the create CLI validates the health indicator against the
3-value enum, but an invalid value is silently **omitted** from the payload
(never forwarded — the request is still dispatched, with no error); a valid
value is forwarded.  The time estimate is converted to whole seconds by
rounding hours × 3600 and is included only when finite and strictly
positive; negative, zero or non-finite values are silently omitted (again no
error). -/
theorem createIssue_payload_amended :
    (∀ (t : String) (d l : Option String) (h : String) (e : Option JsNum),
        t ≠ "" → h ∉ healthEnum →
        ∃ p, buildCreateIssuePayload (some t) d l (some h) e = .ok p ∧
          p.health_status = none) ∧
    (∀ (t : String) (d l : Option String) (h : String) (e : Option JsNum),
        t ≠ "" → h ∈ healthEnum →
        ∃ p, buildCreateIssuePayload (some t) d l (some h) e = .ok p ∧
          p.health_status = some h) ∧
    (buildCreateIssuePayload (some "Fix") none none none (some (.num (3 / 2))) =
        .ok { title := "Fix", description := "", labels := "", time_estimate := some 5400 }) ∧
    (∀ (t : String) (d l ho : Option String) (q : ℚ), t ≠ "" → q ≤ 0 →
        ∃ p, buildCreateIssuePayload (some t) d l ho (some (.num q)) = .ok p ∧
          p.time_estimate = none) ∧
    (∀ (t : String) (d l ho : Option String) (j : JsNum), t ≠ "" → j.isFinite = false →
        ∃ p, buildCreateIssuePayload (some t) d l ho (some j) = .ok p ∧
          p.time_estimate = none) ∧
    (∀ (t : String) (d l ho : Option String) (q : ℚ), t ≠ "" → 0 < q →
        ∃ p, buildCreateIssuePayload (some t) d l ho (some (.num q)) = .ok p ∧
          p.time_estimate = some (jsRound (q * 3600))) := by
  have hok : ∀ (t : String) (d l h : Option String) (e : Option JsNum), t ≠ "" →
      buildCreateIssuePayload (some t) d l h e =
        .ok { title := t, description := d.getD "", labels := l.getD "",
              health_status := healthField h,
              time_estimate := estimateSecondsField e } := by
    intro t d l h e ht
    simp only [buildCreateIssuePayload, if_neg ht]
  refine ⟨?_, ?_, ?_, ?_, ?_, ?_⟩
  · intro t d l h e ht hh
    refine ⟨_, hok t d l (some h) e ht, ?_⟩
    simp [healthField, hh]
  · intro t d l h e ht hh
    refine ⟨_, hok t d l (some h) e ht, ?_⟩
    simp [healthField, hh]
  · rw [hok "Fix" none none none (some (.num (3 / 2))) (by decide)]
    have hq : (0 : ℚ) < 3 / 2 := by norm_num
    have he : estimateSecondsField (some (.num (3 / 2))) = some 5400 := by
      simp only [estimateSecondsField, if_pos hq]
      have h36 : (3 / 2 : ℚ) * 3600 = 5400 := by norm_num
      rw [h36]
      have : jsRound 5400 = 5400 := by
        rw [jsRound]
        exact Int.floor_eq_iff.mpr ⟨by norm_num, by norm_num⟩
      rw [this]
    rw [he]
    rfl
  · intro t d l ho q ht hq
    refine ⟨_, hok t d l ho (some (.num q)) ht, ?_⟩
    simp [estimateSecondsField, not_lt_of_ge hq]
  · intro t d l ho j ht hj
    refine ⟨_, hok t d l ho (some j) ht, ?_⟩
    cases j with
    | num q => simp [JsNum.isFinite] at hj
    | nan => rfl
    | posInf => rfl
    | negInf => rfl
  · intro t d l ho q ht hq
    refine ⟨_, hok t d l ho (some (.num q)) ht, ?_⟩
    simp [estimateSecondsField, hq]

/-- Witness for the amended C5 at concrete inputs. -/
theorem createIssue_payload_amended_witness :
    (∃ p, buildCreateIssuePayload (some "A bug") none none (some "bogus") none = .ok p ∧
        p.health_status = none) ∧
    (∃ p, buildCreateIssuePayload (some "A bug") none none (some "at_risk") none = .ok p ∧
        p.health_status = some "at_risk") ∧
    (∃ p, buildCreateIssuePayload (some "A bug") none none none (some (.num (-2))) = .ok p ∧
        p.time_estimate = none) ∧
    (∃ p, buildCreateIssuePayload (some "A bug") none none none (some .nan) = .ok p ∧
        p.time_estimate = none) ∧
    (∃ p, buildCreateIssuePayload (some "A bug") none none none (some (.num 2)) = .ok p ∧
        p.time_estimate = some (jsRound (2 * 3600))) :=
  ⟨createIssue_payload_amended.1 "A bug" none none "bogus" none (by decide) (by decide),
   createIssue_payload_amended.2.1 "A bug" none none "at_risk" none (by decide) (by decide),
   createIssue_payload_amended.2.2.2.1 "A bug" none none none (-2) (by decide) (by norm_num),
   createIssue_payload_amended.2.2.2.2.1 "A bug" none none none .nan (by decide) (by decide),
   createIssue_payload_amended.2.2.2.2.2 "A bug" none none none 2 (by decide) (by norm_num)⟩

/-! ## Theorems: issue update -/

/-- Counterexample to C6 as stated: an input whose only optional field is an
explicitly present empty title is **not** kept in the body (the truthiness
guard drops it), and `updateIssue` consequently fails with the "nothing to
update" validation error even though an updatable field was explicitly
present. -/
theorem updateIssue_empty_title_counterexample :
    (buildUpdateBody { issueIid := "7", title := some "" }).title = none ∧
    updateIssueRequest { issueIid := "7", title := some "" } =
        .error "No fields provided to update." :=
  ⟨rfl, rfl⟩

/-- C6 amended: `description` and `timeEstimateSeconds` are included exactly
when present (explicit empty / `null` values are kept, so they can clear);
`labels` is included whenever present, comma-joined (an explicit empty list
is sent as the empty string); `title`, `stateEvent` and `healthStatus` are
guarded by truthiness — an explicit empty string is dropped as if absent.
When every guard drops its field the call fails with the "nothing to update"
validation error before any request; otherwise the request with exactly the
built body is dispatched. -/
theorem updateIssue_fields_amended :
    (∀ input : UpdateIssueInput, (buildUpdateBody input).description = input.description) ∧
    (∀ input : UpdateIssueInput,
        (buildUpdateBody input).time_estimate = input.timeEstimateSeconds) ∧
    (∀ (input : UpdateIssueInput) (ls : List String), input.labels = some ls →
        (buildUpdateBody input).labels = some (String.intercalate "," ls)) ∧
    (∀ (input : UpdateIssueInput) (t : String), input.title = some t → t ≠ "" →
        (buildUpdateBody input).title = some t) ∧
    (∀ input : UpdateIssueInput, input.title = some "" →
        (buildUpdateBody input).title = none) ∧
    (∀ (input : UpdateIssueInput) (s : String), input.stateEvent = some s → s ≠ "" →
        (buildUpdateBody input).state_event = some s) ∧
    (∀ input : UpdateIssueInput, input.stateEvent = some "" →
        (buildUpdateBody input).state_event = none) ∧
    (∀ (input : UpdateIssueInput) (h : String), input.healthStatus = some h → h ≠ "" →
        (buildUpdateBody input).health_status = some h) ∧
    (∀ input : UpdateIssueInput, input.healthStatus = some "" →
        (buildUpdateBody input).health_status = none) ∧
    (∀ input : UpdateIssueInput, input.issueIid ≠ "" →
        bodyIsEmpty (buildUpdateBody input) = true →
        updateIssueRequest input = .error "No fields provided to update.") ∧
    (∀ input : UpdateIssueInput, input.issueIid ≠ "" →
        bodyIsEmpty (buildUpdateBody input) = false →
        updateIssueRequest input = .ok (buildUpdateBody input)) := by
  refine ⟨fun input => rfl, fun input => rfl, ?_, ?_, ?_, ?_, ?_, ?_, ?_, ?_, ?_⟩
  · intro input ls h
    simp [buildUpdateBody, h]
  · intro input t h ht
    simp [buildUpdateBody, h, ht]
  · intro input h
    simp [buildUpdateBody, h]
  · intro input s h hs
    simp [buildUpdateBody, h, hs]
  · intro input h
    simp [buildUpdateBody, h]
  · intro input hv heq hne
    simp [buildUpdateBody, heq, hne]
  · intro input h
    simp [buildUpdateBody, h]
  · intro input hiid hempty
    simp [updateIssueRequest, hiid, hempty]
  · intro input hiid hempty
    simp [updateIssueRequest, hiid, hempty]

/-- Witness for the amended C6 at concrete inputs. -/
theorem updateIssue_fields_amended_witness :
    (buildUpdateBody { issueIid := "7", description := some "" }).description = some "" ∧
    (buildUpdateBody { issueIid := "7", timeEstimateSeconds := some none }).time_estimate =
        some none ∧
    (buildUpdateBody { issueIid := "7", labels := some [] }).labels = some "" ∧
    (buildUpdateBody { issueIid := "7", title := some "New" }).title = some "New" ∧
    (buildUpdateBody { issueIid := "7", stateEvent := some "close" }).state_event =
        some "close" ∧
    (buildUpdateBody { issueIid := "7", healthStatus := some "at_risk" }).health_status =
        some "at_risk" ∧
    updateIssueRequest { issueIid := "7" } = .error "No fields provided to update." ∧
    updateIssueRequest { issueIid := "7", description := some "" } =
        .ok (buildUpdateBody { issueIid := "7", description := some "" }) :=
  ⟨updateIssue_fields_amended.1 { issueIid := "7", description := some "" },
   updateIssue_fields_amended.2.1 { issueIid := "7", timeEstimateSeconds := some none },
   updateIssue_fields_amended.2.2.1 { issueIid := "7", labels := some [] } [] rfl,
   updateIssue_fields_amended.2.2.2.1 { issueIid := "7", title := some "New" } "New" rfl
     (by decide),
   updateIssue_fields_amended.2.2.2.2.2.1 { issueIid := "7", stateEvent := some "close" }
     "close" rfl (by decide),
   updateIssue_fields_amended.2.2.2.2.2.2.2.1
     { issueIid := "7", healthStatus := some "at_risk" } "at_risk" rfl (by decide),
   updateIssue_fields_amended.2.2.2.2.2.2.2.2.2.1 { issueIid := "7" } (by decide) (by decide),
   updateIssue_fields_amended.2.2.2.2.2.2.2.2.2.2
     { issueIid := "7", description := some "" } (by decide) (by decide)⟩

/-! ## Theorems: paginated fetcher -/

/-- One loop step on a successful page that announces a further page:
record the request, accumulate, and continue with the page's `endCursor`. -/
theorem fetchLoop_cons_mid (fp : String) (ps : Nat) (cursor : Option String)
    (acc : List GitLabIssue) (meta : Option ProjectRef) (labels : List IssueLabel)
    (r : HttpResponse) (rest : List HttpResponse)
    (hr : goodPage r) (hnext : pageHasNext r = true) :
    fetchLoop fp ps cursor acc meta labels (r :: rest) =
      (⟨fp, ps, cursor⟩ ::
        (fetchLoop fp ps (pageCursor r) (acc ++ pageIssues r) (pageMeta r)
          ((pageLabels r).getD labels) rest).1,
       (fetchLoop fp ps (pageCursor r) (acc ++ pageIssues r) (pageMeta r)
          ((pageLabels r).getD labels) rest).2) := by
  obtain ⟨hok, herr, hproj⟩ := hr
  obtain ⟨p, hp⟩ := Option.isSome_iff_exists.mp hproj
  have hnext' : p.issuesPageInfo.hasNextPage = true := by
    simpa [pageHasNext, hp] using hnext
  simp only [fetchLoop, hok, herr, hp, hnext', Bool.true_eq_false, if_false,
    Bool.false_eq_true, if_true, pageCursor, pageMeta, pageLabels, pageIssues]
  rfl

/-- One loop step on a successful final page: record the request and return
the accumulated state. -/
theorem fetchLoop_cons_last (fp : String) (ps : Nat) (cursor : Option String)
    (acc : List GitLabIssue) (meta : Option ProjectRef) (labels : List IssueLabel)
    (r : HttpResponse) (rest : List HttpResponse)
    (hr : goodPage r) (hnext : pageHasNext r = false) :
    fetchLoop fp ps cursor acc meta labels (r :: rest) =
      ([⟨fp, ps, cursor⟩],
       .ok (pageMeta r, acc ++ pageIssues r, (pageLabels r).getD labels)) := by
  obtain ⟨hok, herr, hproj⟩ := hr
  obtain ⟨p, hp⟩ := Option.isSome_iff_exists.mp hproj
  have hnext' : p.issuesPageInfo.hasNextPage = false := by
    simpa [pageHasNext, hp] using hnext
  simp only [fetchLoop, hok, herr, hp, hnext', Bool.true_eq_false, if_false,
    Bool.false_eq_true, if_true, pageCursor, pageMeta, pageLabels, pageIssues]
  rfl

/-- One loop step on a non-success HTTP response: record the request and
fail with the transport error; nothing further is requested. -/
theorem fetchLoop_cons_transport (fp : String) (ps : Nat) (cursor : Option String)
    (acc : List GitLabIssue) (meta : Option ProjectRef) (labels : List IssueLabel)
    (r : HttpResponse) (rest : List HttpResponse) (hok : r.ok = false) :
    fetchLoop fp ps cursor acc meta labels (r :: rest) =
      ([⟨fp, ps, cursor⟩], .error (.transport r.status r.statusText)) := by
  simp only [fetchLoop, hok, if_true]

/-- One loop step on a response with a non-empty `errors` array: record the
request and fail with the joined GraphQL error messages. -/
theorem fetchLoop_cons_graphql (fp : String) (ps : Nat) (cursor : Option String)
    (acc : List GitLabIssue) (meta : Option ProjectRef) (labels : List IssueLabel)
    (r : HttpResponse) (rest : List HttpResponse)
    (hok : r.ok = true) (herr : errorsEmpty r = false) :
    fetchLoop fp ps cursor acc meta labels (r :: rest) =
      ([⟨fp, ps, cursor⟩],
       .error (.graphql (String.intercalate "; " (r.payload.errors.getD [])))) := by
  simp only [fetchLoop, hok, herr, Bool.true_eq_false, if_false, if_true]

/-- One loop step on a response whose project is null: record the request
and fail with the not-found error. -/
theorem fetchLoop_cons_notFound (fp : String) (ps : Nat) (cursor : Option String)
    (acc : List GitLabIssue) (meta : Option ProjectRef) (labels : List IssueLabel)
    (r : HttpResponse) (rest : List HttpResponse)
    (hok : r.ok = true) (herr : errorsEmpty r = true)
    (hproj : r.payload.project = none) :
    fetchLoop fp ps cursor acc meta labels (r :: rest) =
      ([⟨fp, ps, cursor⟩], .error (.notFound "Project not found or access denied.")) := by
  simp only [fetchLoop, hok, herr, hproj, Bool.true_eq_false, if_false,
    Bool.false_eq_true, if_true]

/-- The loop over a well-formed response sequence (every page successful,
all but the last announcing a further page): it issues exactly the expected
request chain and returns the page issues concatenated in arrival order,
the last page's project metadata and the threaded labels snapshot. -/
theorem fetchLoop_good_run (fp : String) (ps : Nat) :
    ∀ (mids : List HttpResponse) (last : HttpResponse),
      (∀ r ∈ mids, goodMidPage r) → goodLastPage last →
      ∀ (cursor : Option String) (acc : List GitLabIssue)
        (meta : Option ProjectRef) (labels : List IssueLabel),
        fetchLoop fp ps cursor acc meta labels (mids ++ [last]) =
          (expectedRequests fp ps cursor (mids ++ [last]),
           .ok (pageMeta last,
                acc ++ ((mids ++ [last]).map pageIssues).flatten,
                threadLabels labels (mids ++ [last]))) := by
  intro mids
  induction mids with
  | nil =>
    intro last _ hl cursor acc meta labels
    rw [List.nil_append, fetchLoop_cons_last fp ps cursor acc meta labels last [] hl.1 hl.2]
    simp [expectedRequests, threadLabels]
  | cons r ms ih =>
    intro last hm hl cursor acc meta labels
    have hr : goodMidPage r := hm r (List.mem_cons_self r ms)
    rw [List.cons_append,
      fetchLoop_cons_mid fp ps cursor acc meta labels r (ms ++ [last]) hr.1 hr.2,
      ih last (fun x hx => hm x (List.mem_cons_of_mem r hx)) hl]
    simp [expectedRequests, threadLabels, List.append_assoc]

/-- Running the loop after a prefix of successful next-page responses: the
prefix contributes one request per page, and the outcome is the outcome of
the loop on the remaining responses (for some continuation state). -/
theorem fetchLoop_after_prefix (fp : String) (ps : Nat) :
    ∀ (mids rest : List HttpResponse),
      (∀ r ∈ mids, goodMidPage r) →
      ∀ (cursor : Option String) (acc : List GitLabIssue)
        (meta : Option ProjectRef) (labels : List IssueLabel),
      ∃ (cursor' : Option String) (acc' : List GitLabIssue)
        (meta' : Option ProjectRef) (labels' : List IssueLabel)
        (reqs : List IssueRequest),
        reqs.length = mids.length ∧
        fetchLoop fp ps cursor acc meta labels (mids ++ rest) =
          (reqs ++ (fetchLoop fp ps cursor' acc' meta' labels' rest).1,
           (fetchLoop fp ps cursor' acc' meta' labels' rest).2) := by
  intro mids
  induction mids with
  | nil =>
    intro rest _ cursor acc meta labels
    exact ⟨cursor, acc, meta, labels, [], rfl, by simp⟩
  | cons r ms ih =>
    intro rest hm cursor acc meta labels
    have hr : goodMidPage r := hm r (List.mem_cons_self r ms)
    obtain ⟨c', a', m', l', reqs, hlen, heq⟩ :=
      ih rest (fun x hx => hm x (List.mem_cons_of_mem r hx)) (pageCursor r)
        (acc ++ pageIssues r) (pageMeta r) ((pageLabels r).getD labels)
    refine ⟨c', a', m', l', ⟨fp, ps, cursor⟩ :: reqs, by simp [hlen], ?_⟩
    rw [List.cons_append,
      fetchLoop_cons_mid fp ps cursor acc meta labels r (ms ++ rest) hr.1 hr.2, heq]
    simp

/-- Threading the labels snapshot distributes over appended page sequences. -/
theorem threadLabels_append (init : List IssueLabel) (xs ys : List HttpResponse) :
    threadLabels init (xs ++ ys) = threadLabels (threadLabels init xs) ys := by
  induction xs generalizing init with
  | nil => simp [threadLabels]
  | cons r rs ih => simp [threadLabels, ih]

/-- C1: over a well-formed page sequence, `fetchProjectIssues` issues
exactly one request per page — the first with `after = null`, each following
request carrying the previous page's `endCursor` — and returns all issue
nodes concatenated in page-arrival order (server order preserved within each
page), with the project metadata and (second conjunct) the labels snapshot
overwritten by the latest page's copy. -/
theorem fetchProjectIssues_pagination
    (fp token : String) (ps : Nat) (mids : List HttpResponse) (last : HttpResponse)
    (hfp : fp ≠ "") (htok : token ≠ "")
    (hm : ∀ r ∈ mids, goodMidPage r) (hl : goodLastPage last) :
    fetchProjectIssues fp token ps (mids ++ [last]) =
      (expectedRequests fp ps none (mids ++ [last]),
       .ok ⟨(pageMeta last).getD (unknownProject fp),
            ((mids ++ [last]).map pageIssues).flatten,
            threadLabels [] (mids ++ [last])⟩) ∧
    (∀ L, pageLabels last = some L → threadLabels [] (mids ++ [last]) = L) := by
  constructor
  · simp only [fetchProjectIssues, if_neg hfp, if_neg htok]
    rw [fetchLoop_good_run fp ps mids last hm hl none [] none []]
    simp [Except.map]
  · intro L hL
    rw [threadLabels_append]
    simp [threadLabels, hL]

/-- Witness for C1: the spec's 2-page sequence (50 issues with
`hasNextPage: true` and cursor `"c1"`, then 13 issues with
`hasNextPage: false`) yields exactly 2 requests — the second with
`after = "c1"` — and exactly 63 issues. -/
theorem fetchProjectIssues_pagination_witness :
    fetchProjectIssues "group/proj" "tok" 50 [page50, page13] =
      ([⟨"group/proj", 50, none⟩, ⟨"group/proj", 50, some "c1"⟩],
       .ok ⟨⟨"gid", "Demo", "https://gitlab.example/demo"⟩,
            List.replicate 63 (normalizeIssueNode sampleNode), [sampleLabel]⟩) ∧
    (fetchProjectIssues "group/proj" "tok" 50 [page50, page13]).1.length = 2 ∧
    (∀ res, (fetchProjectIssues "group/proj" "tok" 50 [page50, page13]).2 = .ok res →
      res.issues.length = 63) := by
  have h := (fetchProjectIssues_pagination "group/proj" "tok" 50 [page50] page13
    (by decide) (by decide) (by decide) (by decide)).1
  have heq : ([page50] ++ [page13] : List HttpResponse) = [page50, page13] := rfl
  rw [heq] at h
  have hval : fetchProjectIssues "group/proj" "tok" 50 [page50, page13] =
      ([⟨"group/proj", 50, none⟩, ⟨"group/proj", 50, some "c1"⟩],
       .ok ⟨⟨"gid", "Demo", "https://gitlab.example/demo"⟩,
            List.replicate 63 (normalizeIssueNode sampleNode), [sampleLabel]⟩) := by
    rw [h]
    refine Prod.ext ?_ ?_
    · decide
    · exact congrArg Except.ok (by decide)
  refine ⟨hval, by rw [hval]; rfl, ?_⟩
  intro res hres
  rw [hval] at hres
  injection hres with h63
  rw [← h63]
  decide

/-- C2: `fetchProjectIssues` fails with a validation error on an empty
project path or token before any request is issued; during pagination a
non-success HTTP status fails with the transport error carrying status code
and status text, a response with a non-empty `errors` array fails with the
joined GraphQL error messages, and a null project fails with the not-found
error — in each case the failing request is the last one issued (no further
requests, regardless of any further provider responses) and no partial
result is returned. -/
theorem fetchProjectIssues_error_handling :
    (∀ (token : String) (ps : Nat) (resps : List HttpResponse),
        fetchProjectIssues "" token ps resps =
          ([], .error (.validation "Missing GitLab project full path."))) ∧
    (∀ (fp : String) (ps : Nat) (resps : List HttpResponse), fp ≠ "" →
        fetchProjectIssues fp "" ps resps =
          ([], .error (.validation "Missing GitLab access token."))) ∧
    (∀ (fp token : String) (ps : Nat) (mids : List HttpResponse) (b : HttpResponse)
        (tail : List HttpResponse), fp ≠ "" → token ≠ "" →
        (∀ r ∈ mids, goodMidPage r) → b.ok = false →
        ∃ reqs : List IssueRequest, reqs.length = mids.length + 1 ∧
          fetchProjectIssues fp token ps (mids ++ b :: tail) =
            (reqs, .error (.transport b.status b.statusText))) ∧
    (∀ (fp token : String) (ps : Nat) (mids : List HttpResponse) (b : HttpResponse)
        (tail : List HttpResponse), fp ≠ "" → token ≠ "" →
        (∀ r ∈ mids, goodMidPage r) → b.ok = true → errorsEmpty b = false →
        ∃ reqs : List IssueRequest, reqs.length = mids.length + 1 ∧
          fetchProjectIssues fp token ps (mids ++ b :: tail) =
            (reqs, .error (.graphql
              (String.intercalate "; " (b.payload.errors.getD []))))) ∧
    (∀ (fp token : String) (ps : Nat) (mids : List HttpResponse) (b : HttpResponse)
        (tail : List HttpResponse), fp ≠ "" → token ≠ "" →
        (∀ r ∈ mids, goodMidPage r) → b.ok = true → errorsEmpty b = true →
        b.payload.project = none →
        ∃ reqs : List IssueRequest, reqs.length = mids.length + 1 ∧
          fetchProjectIssues fp token ps (mids ++ b :: tail) =
            (reqs, .error (.notFound "Project not found or access denied."))) := by
  refine ⟨?_, ?_, ?_, ?_, ?_⟩
  · intro token ps resps
    simp [fetchProjectIssues]
  · intro fp ps resps hfp
    simp [fetchProjectIssues, hfp]
  · intro fp token ps mids b tail hfp htok hm hok
    obtain ⟨c', a', m', l', reqs, hlen, heq⟩ :=
      fetchLoop_after_prefix fp ps mids (b :: tail) hm none [] none []
    refine ⟨reqs ++ [⟨fp, ps, c'⟩], by simp [hlen], ?_⟩
    simp only [fetchProjectIssues, if_neg hfp, if_neg htok]
    rw [heq, fetchLoop_cons_transport fp ps c' a' m' l' b tail hok]
    simp [Except.map]
  · intro fp token ps mids b tail hfp htok hm hok herr
    obtain ⟨c', a', m', l', reqs, hlen, heq⟩ :=
      fetchLoop_after_prefix fp ps mids (b :: tail) hm none [] none []
    refine ⟨reqs ++ [⟨fp, ps, c'⟩], by simp [hlen], ?_⟩
    simp only [fetchProjectIssues, if_neg hfp, if_neg htok]
    rw [heq, fetchLoop_cons_graphql fp ps c' a' m' l' b tail hok herr]
    simp [Except.map]
  · intro fp token ps mids b tail hfp htok hm hok herr hproj
    obtain ⟨c', a', m', l', reqs, hlen, heq⟩ :=
      fetchLoop_after_prefix fp ps mids (b :: tail) hm none [] none []
    refine ⟨reqs ++ [⟨fp, ps, c'⟩], by simp [hlen], ?_⟩
    simp only [fetchProjectIssues, if_neg hfp, if_neg htok]
    rw [heq, fetchLoop_cons_notFound fp ps c' a' m' l' b tail hok herr hproj]
    simp [Except.map]

/-- Witness for C2 at concrete inputs: the two validation failures issue no
request; a 500 response after one good page, a GraphQL-errors response and a
null-project response each abort after the failing request with the claimed
error and no result. -/
theorem fetchProjectIssues_error_handling_witness :
    fetchProjectIssues "" "tok" 50 [page13] =
      ([], .error (.validation "Missing GitLab project full path.")) ∧
    fetchProjectIssues "group/proj" "" 50 [page13] =
      ([], .error (.validation "Missing GitLab access token.")) ∧
    (∃ reqs : List IssueRequest, reqs.length = 2 ∧
      fetchProjectIssues "group/proj" "tok" 50 [page50, badHttpResponse] =
        (reqs, .error (.transport 500 "Internal Server Error"))) ∧
    (∃ reqs : List IssueRequest, reqs.length = 1 ∧
      fetchProjectIssues "group/proj" "tok" 50 [gqlErrorResponse, page13] =
        (reqs, .error (.graphql "field unknown; denied"))) ∧
    (∃ reqs : List IssueRequest, reqs.length = 1 ∧
      fetchProjectIssues "group/proj" "tok" 50 [nullProjectResponse] =
        (reqs, .error (.notFound "Project not found or access denied."))) :=
  ⟨fetchProjectIssues_error_handling.1 "tok" 50 [page13],
   fetchProjectIssues_error_handling.2.1 "group/proj" 50 [page13] (by decide),
   fetchProjectIssues_error_handling.2.2.1 "group/proj" "tok" 50 [page50]
     badHttpResponse [] (by decide) (by decide) (by decide) (by decide),
   fetchProjectIssues_error_handling.2.2.2.1 "group/proj" "tok" 50 []
     gqlErrorResponse [page13] (by decide) (by decide) (by decide) (by decide) (by decide),
   fetchProjectIssues_error_handling.2.2.2.2 "group/proj" "tok" 50 []
     nullProjectResponse [] (by decide) (by decide) (by decide) (by decide) (by decide)
     (by decide)⟩

/-- C8: over a well-formed page sequence whose pages carry per-page
duplicate-free, pairwise disjoint provider identifiers, every successful
`fetchProjectIssues` result has a duplicate-free issue list whose order is
the concatenation of the per-page server order in page-arrival order. -/
theorem fetchProjectIssues_nodup
    (fp token : String) (ps : Nat) (mids : List HttpResponse) (last : HttpResponse)
    (hfp : fp ≠ "") (htok : token ≠ "")
    (hm : ∀ r ∈ mids, goodMidPage r) (hl : goodLastPage last)
    (hnodup : ∀ r ∈ mids ++ [last], ((pageIssues r).map GitLabIssue.id).Nodup)
    (hdisj : ((mids ++ [last]).map
        (fun r => (pageIssues r).map GitLabIssue.id)).Pairwise List.Disjoint) :
    ∀ res : ProjectIssuesResult,
      (fetchProjectIssues fp token ps (mids ++ [last])).2 = .ok res →
      (res.issues.map GitLabIssue.id).Nodup ∧
      res.issues = ((mids ++ [last]).map pageIssues).flatten := by
  intro res hres
  have h2 : (fetchProjectIssues fp token ps (mids ++ [last])).2 =
      .ok ⟨(pageMeta last).getD (unknownProject fp),
           ((mids ++ [last]).map pageIssues).flatten,
           threadLabels [] (mids ++ [last])⟩ := by
    rw [(fetchProjectIssues_pagination fp token ps mids last hfp htok hm hl).1]
  rw [h2] at hres
  have hres' := Except.ok.inj hres
  subst hres'
  refine ⟨?_, rfl⟩
  simp only [List.map_flatten, List.map_map]
  exact List.nodup_flatten.mpr
    ⟨fun l hli => by
        obtain ⟨r, hr, rfl⟩ := List.mem_map.mp hli
        exact hnodup r hr,
     by simpa [Function.comp] using hdisj⟩

/-- Witness for C8: two pages carrying three pairwise distinct issues yield
a duplicate-free merged issue list in page order. -/
theorem fetchProjectIssues_nodup_witness :
    (([pageAB, pageC].map pageIssues).flatten.map GitLabIssue.id).Nodup ∧
    (([pageAB, pageC].map pageIssues).flatten =
      ([pageAB, pageC].map pageIssues).flatten) := by
  have hdisj : (([pageAB] ++ [pageC]).map
      (fun r => (pageIssues r).map GitLabIssue.id)).Pairwise List.Disjoint := by
    show List.Pairwise List.Disjoint [["a", "b"], ["c"]]
    refine List.Pairwise.cons (fun l hl => ?_) ?_
    · rw [List.mem_singleton] at hl
      subst hl
      exact List.disjoint_left.mpr (by decide)
    · simp
  have h := fetchProjectIssues_nodup "group/proj" "tok" 50 [pageAB] pageC
    (by decide) (by decide) (by decide) (by decide) (by decide) hdisj
    ⟨(pageMeta pageC).getD (unknownProject "group/proj"),
     (([pageAB, pageC]).map pageIssues).flatten,
     threadLabels [] [pageAB, pageC]⟩
    (by rw [(fetchProjectIssues_pagination "group/proj" "tok" 50 [pageAB] pageC
        (by decide) (by decide) (by decide) (by decide)).1]; rfl)
  exact ⟨h.1, rfl⟩

end GitLabIssueManager
